import Mathlib

/-!
Shallow embedding of the News-AI-Agent repository (files `agent_logic.py` and
`app.py`) and verification of the frozen claims about it.

Modelling conventions:
* Network effects are made explicit.  A fetch of a page is represented by its
  outcome, `Except FetchError α`: `Except.error e` is the branch in which
  `requests.get`/`raise_for_status` raises a `requests.RequestException`
  (caught by the source), and `Except.ok d` carries the parsed document.
* A parsed homepage is the list of elements matched by `soup.select(selector)`;
  each element carries the result of `get_text(strip=True)` and the optional
  `href` attribute.  URL resolution (`urljoin(site_url, href)`) is passed in as
  a function `resolve : String → String` standing for `urljoin site_url`.
* Python strings are Lean `String`s (sequences of code points); Python slicing
  `s[:n]`, `str.split()` and `str.splitlines()` are modelled explicitly below.
* The dedup-store file `posted_articles.txt` is `Option String`: `none` when
  the file does not exist, `some contents` otherwise.  `has_been_posted` and
  `mark_as_posted` thread this state explicitly.
-/

namespace NewsAgent

/-- Worker for `pyWords`: splits a character list at runs of whitespace,
accumulating the current word in reverse and emitting no empty words. -/
def wordsAux : List Char → List Char → List String
  | [], cur => if cur.isEmpty then [] else [String.mk cur.reverse]
  | c :: rest, cur =>
    if c.isWhitespace then
      if cur.isEmpty then wordsAux rest []
      else String.mk cur.reverse :: wordsAux rest []
    else wordsAux rest (c :: cur)

/-- Python `str.split()` with no argument: split on whitespace runs and drop
the empty pieces.  Used for the `len(title.split()) > 5` word-count filter. -/
def pyWords (s : String) : List String :=
  wordsAux s.data []

/-- Python slicing `s[:n]`: the first `n` code points of `s`. -/
def pyTake (s : String) (n : Nat) : String :=
  String.mk (s.data.take n)

/-- The line-boundary characters of Python `str.splitlines()`: `\n`, `\r`,
`\v` (`\x0b`), `\f` (`\x0c`), the separators `\x1c`-`\x1e`, `\x85` (NEL),
`U+2028` (line separator) and `U+2029` (paragraph separator).  The
two-character terminator `\r\n` is handled separately by `splitlinesAux`. -/
def lineBreakChars : List Char :=
  ['\n', '\r', '\x0B', '\x0C', '\x1C', '\x1D', '\x1E', '\u0085', '\u2028', '\u2029']

/-- Whether a character is one of Python's `str.splitlines()` boundaries. -/
def isLineBreak (c : Char) : Bool :=
  lineBreakChars.contains c

/-- Worker for `pySplitlines`: splits a character list at every
`str.splitlines()` boundary character, accumulating the current line in
reverse.  The flag records that the previous character was a `\r` whose line
was already emitted, so that a directly following `\n` is consumed silently
(the two-character terminator `\r\n`). -/
def splitlinesAux : List Char → List Char → Bool → List String
  | [], acc, _ => if acc.isEmpty then [] else [String.mk acc.reverse]
  | c :: rest, acc, afterCR =>
    if afterCR = true ∧ c = '\n' then
      splitlinesAux rest acc false
    else if c = '\r' then
      String.mk acc.reverse :: splitlinesAux rest [] true
    else if isLineBreak c = true then
      String.mk acc.reverse :: splitlinesAux rest [] false
    else
      splitlinesAux rest (c :: acc) false

/-- Python `str.splitlines()` over the full set of line boundaries it
recognizes (`\n`, `\r`, `\r\n`, `\v`, `\f`, `\x1c`-`\x1e`, `\x85`, `U+2028`,
`U+2029`): the list of lines, with no trailing empty line. -/
def pySplitlines (s : String) : List String :=
  splitlinesAux s.data [] false

/-- Python `" ".join(parts)` (more generally `sep.join(parts)`). -/
def pyJoin (sep : String) : List String → String
  | [] => ""
  | s :: rest => rest.foldl (fun acc t => acc ++ sep ++ t) s

/-- An element returned by `soup.select(link_selector)`: its stripped visible
text (`get_text(strip=True)`) and its optional `href` attribute
(`link_element.get('href')`). -/
structure Element where
  text : String
  href : Option String
deriving DecidableEq

/-- A candidate article produced by `get_latest_articles`: the dict
`{'title': title, 'url': full_url}`. -/
structure Candidate where
  title : String
  url : String
deriving DecidableEq

/-- The ways `requests.get(...)`/`response.raise_for_status()` can raise a
`requests.RequestException` (all caught by the same `except` clause). -/
inductive FetchError
  | timeout
  | connectionError
  | httpStatus (code : Nat)
deriving DecidableEq

/-- The accumulation loop of `get_latest_articles` over the matched elements
(`agent_logic.py` lines 30-41).  For each element: `title` is the stripped
text, `href` the attribute (Python truthiness: `None` and `""` are falsy, so
`e.href.getD ""` with an emptiness test models `if title and href`).  An
element qualifies when title and href are non-empty and the title has more
than 5 whitespace-separated words; it is then appended unless its raw `href`
already occurs among the resolved urls of the accepted candidates (the
source's `if href not in [a['url'] for a in articles]`), with the url stored
being `resolve href` (the source's `urljoin(site_url, href)`). -/
def acceptLoop (resolve : String → String) : List Element → List Candidate → List Candidate
  | [], acc => acc
  | e :: rest, acc =>
    if e.text ≠ "" ∧ e.href.getD "" ≠ "" ∧ 5 < (pyWords e.text).length then
      if e.href.getD "" ∈ acc.map Candidate.url then
        acceptLoop resolve rest acc
      else
        acceptLoop resolve rest (acc ++ [⟨e.text, resolve (e.href.getD "")⟩])
    else
      acceptLoop resolve rest acc

/-- `get_latest_articles` (`agent_logic.py` lines 18-46): on a successful
fetch, run the acceptance loop over the matched elements and return the first
10 accepted candidates (`articles[:10]`); on any `requests.RequestException`
the source logs and returns the empty list. -/
def get_latest_articles (resolve : String → String)
    (fetched : Except FetchError (List Element)) : List Candidate :=
  match fetched with
  | Except.ok elems => (acceptLoop resolve elems []).take 10
  | Except.error _ => []

/-- The content extracted from an article page by `scrape_article_content`:
the dict `{'text': article_text, 'image_url': image_url}`. -/
structure ArticleContent where
  text : String
  image_url : Option String
deriving DecidableEq

/-- A parsed article page as `scrape_article_content` consumes it: the
stripped texts of all `<p>` tags in document order, and the `og:image` meta
tag (`none` when no such tag exists; `some a` when the tag exists with
optional `content` attribute `a`). -/
structure ArticleDoc where
  paragraphs : List String
  og_image : Option (Option String)
deriving DecidableEq

/-- `scrape_article_content` (`agent_logic.py` lines 48-79): joins the
paragraph texts with single spaces, reads the `og:image` content value if the
tag is present with a truthy (non-empty) content, and returns `none` when the
joined text is empty or the fetch raised. -/
def scrape_article_content (fetched : Except FetchError ArticleDoc) :
    Option ArticleContent :=
  match fetched with
  | Except.error _ => none
  | Except.ok doc =>
    let article_text := pyJoin " " doc.paragraphs
    let image_url : Option String :=
      match doc.og_image with
      | some (some c) => if c ≠ "" then some c else none
      | _ => none
    if article_text = "" then none
    else some ⟨article_text, image_url⟩

set_option linter.unusedVariables false in
/-- `summarize_article` (`agent_logic.py` lines 82-128).  `llmResult` is the
outcome of `chain.invoke(...)` followed by the `['output_text']` projection:
`none` when the call raises (caught by the source, which returns `None`), and
`some t` when it returns text `t`.  On empty `article_text` the source
short-circuits to the fixed placeholder string before any external call. -/
def summarize_article (llmResult : Option String)
    (article_text article_title : String) : Option String :=
  if article_text = "" then some "Summary could not be generated."
  else
    match llmResult with
    | some output_text => some output_text
    | none => none

/-- A message sent by `post_to_telegram`: `send_photo` with a caption, or
`send_message` with plain text. -/
inductive SentMessage
  | photo (image_url : String) (caption : String)
  | text (message : String)
deriving DecidableEq

/-- The caption of a sent message (for a text-only message, the message body
plays the caption's role). -/
def SentMessage.caption : SentMessage → String
  | SentMessage.photo _ c => c
  | SentMessage.text m => m

/-- The article dict as `post_to_telegram` receives it in `app.py`: the
candidate fields plus the `image_url` field that `app.py` line 164 copies in
from the scraped content. -/
structure Article where
  title : String
  url : String
  image_url : Option String
deriving DecidableEq

/-- `MAX_SUMMARY_LENGTH` (`agent_logic.py` line 140). -/
def MAX_SUMMARY_LENGTH : Nat := 850

/-- The summary truncation of `post_to_telegram` (`agent_logic.py` lines
142-143): `if len(summary) > MAX_SUMMARY_LENGTH: summary = summary[:850] + "..."`. -/
def truncSummary (summary : String) : String :=
  if MAX_SUMMARY_LENGTH < summary.length then
    pyTake summary MAX_SUMMARY_LENGTH ++ "..."
  else summary

/-- The message f-string of `post_to_telegram` (`agent_logic.py` line 145). -/
def buildMessage (summary : String) (article : Article) : String :=
  "📰 *" ++ article.title ++ "*\n\n" ++ summary ++
    "\n\n🔗 [Read the full article here](" ++ article.url ++ ")"

/-- `post_to_telegram` (`agent_logic.py` lines 131-158).  `transportOK` is
the outcome of the `bot.send_photo`/`bot.send_message` call: `true` when it
completes, `false` when it raises (the source catches the exception and
returns `False`).  Returns the success flag together with the message sent:
a photo message with the text as caption when `article.get('image_url')` is
truthy, a text message otherwise. -/
def post_to_telegram (transportOK : Bool) (summary : String)
    (article : Article) : Bool × SentMessage :=
  let s := truncSummary summary
  let message := buildMessage s article
  let sent :=
    match article.image_url with
    | some img =>
      if img ≠ "" then SentMessage.photo img message
      else SentMessage.text message
    | none => SentMessage.text message
  (transportOK, sent)

/-- `has_been_posted` (`agent_logic.py` lines 160-163): `false` when the file
does not exist, otherwise membership of the url among the lines of the file
contents (`article_url in f.read().splitlines()`). -/
def has_been_posted (store : Option String) (article_url : String) : Bool :=
  match store with
  | none => false
  | some contents => (pySplitlines contents).contains article_url

/-- `mark_as_posted` (`agent_logic.py` lines 165-167): append
`f"{article_url}\n"` to the file, creating it if absent (append mode). -/
def mark_as_posted (store : Option String) (article_url : String) : Option String :=
  some (store.getD "" ++ article_url ++ "\n")

/-- The spec's per-candidate `PipelineOutcome`, as realized by the branches of
the main loop in `app.py` lines 148-186. -/
inductive Outcome
  | skippedPosted
  | skippedScrape
  | skippedSummarize
  | posted
  | failed
deriving DecidableEq

/-- The external world as one candidate's iteration of the main loop observes
it: the result of `scrape_article_content(article['url'])`, the outcome of
the LLM call inside `summarize_article` (see `summarize_article`), and the
outcome of the Telegram transport call inside `post_to_telegram`. -/
structure CandidateEnv where
  scrape : Option ArticleContent
  llm : Option String
  publishOK : Bool
deriving DecidableEq

/-- One iteration of the per-candidate loop of `app.py` (lines 148-186),
threading the dedup-store state: skip quietly if `has_been_posted`; skip if
the scrape returned `None` or empty text (`if not content or not
content['text']`); skip if the summary is falsy (`if not summary`); otherwise
post, and call `mark_as_posted` exactly when the post succeeded. -/
def processCandidate (env : CandidateEnv) (store : Option String)
    (c : Candidate) : Outcome × Option String :=
  if has_been_posted store c.url then (Outcome.skippedPosted, store)
  else
    match env.scrape with
    | none => (Outcome.skippedScrape, store)
    | some content =>
      if content.text = "" then (Outcome.skippedScrape, store)
      else
        match summarize_article env.llm content.text c.title with
        | none => (Outcome.skippedSummarize, store)
        | some summary =>
          if summary = "" then (Outcome.skippedSummarize, store)
          else
            let result := post_to_telegram env.publishOK summary
              ⟨c.title, c.url, content.image_url⟩
            if result.1 then (Outcome.posted, mark_as_posted store c.url)
            else (Outcome.failed, store)

/-- The per-candidate loop of `app.py` over a list of candidates, each with
its observation of the external world, threading the dedup store and
collecting the outcomes in order.  One source's inner loop is such a run; a
whole cycle over several sources is the run of the concatenated lists, since
the store is the only state carried across sources. -/
def runCandidates (store : Option String) :
    List (Candidate × CandidateEnv) → List Outcome × Option String
  | [] => ([], store)
  | (c, env) :: rest =>
    let r := processCandidate env store c
    let rr := runCandidates r.2 rest
    (r.1 :: rr.1, rr.2)

/-- A string free of every line-terminator character that Python's
`str.splitlines()` recognizes. -/
def noNL (s : String) : Prop :=
  ∀ c ∈ s.data, isLineBreak c = false

instance (s : String) : Decidable (noNL s) := by
  unfold noNL; infer_instance

/-- The contents of the dedup-store file after the given urls have been
appended by `mark_as_posted`, in order, starting from an absent/empty file:
one url per line. -/
def encodeStore : List String → String
  | [] => ""
  | u :: us => u ++ "\n" ++ encodeStore us

/-- The lines of the dedup store (empty for a missing file). -/
def storeLines (store : Option String) : List String :=
  pySplitlines (store.getD "")

/-- A sequence of `mark_as_posted` calls, in order. -/
def applyMarks (store : Option String) (urls : List String) : Option String :=
  urls.foldl mark_as_posted store

/-- A store state the program can produce: the file is absent, or holds
newline-terminated records of line-break-free urls. -/
def ReachableStore (store : Option String) : Prop :=
  store = none ∨ ∃ us : List String, (∀ u ∈ us, noNL u) ∧ store = some (encodeStore us)

theorem ne_cr_of_not_lineBreak {c : Char} (hc : isLineBreak c = false) : c ≠ '\r' := by
  intro hcr
  subst hcr
  exact absurd hc (by decide)

theorem splitlinesAux_line (u : List Char) (hu : ∀ c ∈ u, isLineBreak c = false)
    (rest : List Char) (acc : List Char) :
    splitlinesAux (u ++ '\n' :: rest) acc false
      = String.mk (acc.reverse ++ u) :: splitlinesAux rest [] false := by
  induction u generalizing acc with
  | nil =>
    simp only [List.nil_append, splitlinesAux]
    rw [if_neg (by simp), if_neg (by decide), if_pos (by decide)]
    simp
  | cons c u ih =>
    have hc : isLineBreak c = false := hu c (List.mem_cons_self ..)
    have hu2 : ∀ d ∈ u, isLineBreak d = false := fun d hd => hu d (List.mem_cons_of_mem _ hd)
    simp only [List.cons_append, splitlinesAux]
    rw [if_neg (by simp), if_neg (ne_cr_of_not_lineBreak hc), if_neg (by simp [hc])]
    rw [List.append_eq, ih hu2]
    simp

theorem pySplitlines_encodeStore (us : List String) (hus : ∀ u ∈ us, noNL u) :
    pySplitlines (encodeStore us) = us := by
  induction us with
  | nil => simp [pySplitlines, encodeStore, splitlinesAux]
  | cons u us ih =>
    have hu : ∀ c ∈ u.data, isLineBreak c = false := hus u (List.mem_cons_self ..)
    have hus2 : ∀ v ∈ us, noNL v := fun v hv => hus v (List.mem_cons_of_mem _ hv)
    have hdata : (encodeStore (u :: us)).data = u.data ++ '\n' :: (encodeStore us).data := by
      simp [encodeStore, String.data_append]
    unfold pySplitlines
    rw [hdata, splitlinesAux_line u.data hu _ []]
    rw [← pySplitlines]
    simp [ih hus2]

theorem encodeStore_append (us vs : List String) :
    encodeStore (us ++ vs) = encodeStore us ++ encodeStore vs := by
  induction us with
  | nil => simp [encodeStore, String.empty_append]
  | cons u us ih => simp [encodeStore, ih, String.append_assoc]

theorem encodeStore_singleton (u : String) : encodeStore [u] = u ++ "\n" := by
  show u ++ "\n" ++ encodeStore [] = u ++ "\n"
  show u ++ "\n" ++ "" = u ++ "\n"
  rw [String.append_empty]

theorem mark_as_posted_encode (us : List String) (v : String) :
    mark_as_posted (some (encodeStore us)) v = some (encodeStore (us ++ [v])) := by
  simp [mark_as_posted, encodeStore_append, encodeStore_singleton, String.append_assoc]

theorem mark_as_posted_none (v : String) :
    mark_as_posted none v = some (encodeStore [v]) := by
  simp [mark_as_posted, encodeStore_singleton, String.empty_append]

theorem has_been_posted_encode (us : List String) (hus : ∀ u ∈ us, noNL u) (x : String) :
    has_been_posted (some (encodeStore us)) x = true ↔ x ∈ us := by
  simp [has_been_posted, pySplitlines_encodeStore us hus, List.elem_iff]

theorem applyMarks_encode (vs us : List String) :
    applyMarks (some (encodeStore us)) vs = some (encodeStore (us ++ vs)) := by
  induction vs generalizing us with
  | nil => simp [applyMarks, encodeStore]
  | cons v vs ih =>
    show applyMarks (mark_as_posted (some (encodeStore us)) v) vs = _
    rw [mark_as_posted_encode, ih (us ++ [v])]
    simp

/-- C2 counterexample: for the newline-containing URL
`"a\nb"`, marking and then immediately querying returns `false`: the appended
record is read back as the two lines `a` and `b`, neither of which equals the
url. -/
theorem c2_counterexample :
    has_been_posted (mark_as_posted none "a\nb") "a\nb" = false := by decide

/-- C2 (amended): for every URL `u` free of line-terminator characters, from
any store state the program can produce (absent file, or newline-terminated
records of such urls), after `mark_as_posted u` every subsequent
`has_been_posted u` call returns `true`, even after arbitrarily many further
`mark_as_posted` calls of such urls.  Durability across restarts is modelled
by the store state being exactly the persisted file contents. -/
theorem c2_mark_then_query (u : String) (hu : noNL u)
    (store : Option String) (hstore : ReachableStore store)
    (more : List String) (hmore : ∀ v ∈ more, noNL v) :
    has_been_posted (applyMarks (mark_as_posted store u) more) u = true := by
  obtain hnone | ⟨us, hus, rfl⟩ := hstore
  · subst hnone
    rw [mark_as_posted_none, applyMarks_encode]
    rw [has_been_posted_encode]
    · simp
    · intro v hv
      rcases List.mem_append.mp hv with h | h
      · rcases List.mem_singleton.mp h with rfl; exact hu
      · exact hmore v h
  · rw [mark_as_posted_encode, applyMarks_encode]
    rw [has_been_posted_encode]
    · simp
    · intro v hv
      rcases List.mem_append.mp hv with h | h
      · rcases List.mem_append.mp h with h2 | h2
        · exact hus v h2
        · rcases List.mem_singleton.mp h2 with rfl; exact hu
      · exact hmore v h

/-- C2 witness: a concrete mark-then-query round trip through
`c2_mark_then_query`, starting from the absent file, with one further mark in
between. -/
theorem c2_witness :
    noNL "https://x.com/a" ∧
      has_been_posted
        (applyMarks (mark_as_posted none "https://x.com/a") ["https://x.com/b"])
        "https://x.com/a" = true :=
  ⟨by decide, c2_mark_then_query "https://x.com/a" (by decide) none (Or.inl rfl)
    ["https://x.com/b"] (by decide)⟩

/-- Provenance of accepted candidates: every candidate produced by the
acceptance loop is either from the initial accumulator or arises from a
matched element that passed every filter (non-empty title and href, more than
5 words), with the candidate's url being the resolution of that element's raw
href. -/
theorem acceptLoop_mem (resolve : String → String) (elems : List Element) :
    ∀ (acc : List Candidate) (c : Candidate),
      c ∈ acceptLoop resolve elems acc →
      c ∈ acc ∨ ∃ e ∈ elems, c.title = e.text ∧ e.text ≠ "" ∧
        5 < (pyWords e.text).length ∧
        ∃ h, e.href = some h ∧ h ≠ "" ∧ c.url = resolve h := by
  induction elems with
  | nil =>
    intro acc c hc
    exact Or.inl (by simpa [acceptLoop] using hc)
  | cons e rest ih =>
    intro acc c hc
    by_cases hq : e.text ≠ "" ∧ e.href.getD "" ≠ "" ∧ 5 < (pyWords e.text).length
    · rw [acceptLoop, if_pos hq] at hc
      by_cases hdup : e.href.getD "" ∈ acc.map Candidate.url
      · rw [if_pos hdup] at hc
        rcases ih acc c hc with h | ⟨e2, he2, hrest⟩
        · exact Or.inl h
        · exact Or.inr ⟨e2, List.mem_cons_of_mem _ he2, hrest⟩
      · rw [if_neg hdup] at hc
        rcases ih _ c hc with h | ⟨e2, he2, hrest⟩
        · rcases List.mem_append.mp h with h2 | h2
          · exact Or.inl h2
          · rcases List.mem_singleton.mp h2 with rfl
            refine Or.inr ⟨e, List.mem_cons_self .., rfl, hq.1, hq.2.2, ?_⟩
            cases hhref : e.href with
            | none => exact absurd (by simp [hhref]) hq.2.1
            | some h =>
              exact ⟨h, rfl, by simpa [hhref] using hq.2.1, by simp [hhref]⟩
        · exact Or.inr ⟨e2, List.mem_cons_of_mem _ he2, hrest⟩
    · rw [acceptLoop, if_neg hq] at hc
      rcases ih acc c hc with h | ⟨e2, he2, hrest⟩
      · exact Or.inl h
      · exact Or.inr ⟨e2, List.mem_cons_of_mem _ he2, hrest⟩

/-- C7: an element whose trimmed text has 5 or fewer whitespace-separated
words, or whose title or href is empty, is never included in the result of
`get_latest_articles`, regardless of href validity: every returned candidate
has a non-empty title of more than 5 words (so an excluded element's text can
never appear as a title), and every returned url is the resolution of some
non-empty href of a matched element. -/
theorem c7_title_filter (resolve : String → String) (elems : List Element)
    (c : Candidate) (hc : c ∈ get_latest_articles resolve (Except.ok elems)) :
    c.title ≠ "" ∧ 5 < (pyWords c.title).length ∧
      c.url ∈ ((elems.filterMap Element.href).filter (fun h => h ≠ "")).map resolve := by
  simp only [get_latest_articles] at hc
  have hc2 : c ∈ acceptLoop resolve elems [] := List.take_subset _ _ hc
  rcases acceptLoop_mem resolve elems [] c hc2 with h | ⟨e, he, htitle, hne, hwords, h, hhref, hhne, hurl⟩
  · simp at h
  · refine ⟨htitle ▸ hne, htitle ▸ hwords, ?_⟩
    rw [hurl]
    apply List.mem_map_of_mem
    rw [List.mem_filter]
    refine ⟨?_, by simpa using hhne⟩
    rw [List.mem_filterMap]
    exact ⟨e, he, hhref⟩

/-- C7 witness: a concrete single-element document whose candidate is in the
result, with the filter facts evaluated there. -/
theorem c7_witness :
    (⟨"one two three four five six", "/a"⟩ : Candidate)
        ∈ get_latest_articles id (Except.ok [⟨"one two three four five six", some "/a"⟩]) ∧
      ("one two three four five six" : String) ≠ "" ∧
      5 < (pyWords "one two three four five six").length ∧
      ("/a" : String) ∈ ((([⟨"one two three four five six", some "/a"⟩] :
          List Element).filterMap Element.href).filter (fun h => h ≠ "")).map id :=
  ⟨by decide,
    c7_title_filter id [⟨"one two three four five six", some "/a"⟩]
      ⟨"one two three four five six", "/a"⟩ (by decide)⟩

/-- C6: when the acceptance loop accepts more than 10 candidates, the result
of `get_latest_articles` is exactly the first 10 of them, in document order
(a prefix of the accepted list, which is built in document order). -/
theorem c6_candidate_cap (resolve : String → String) (elems : List Element)
    (hlen : 10 < (acceptLoop resolve elems []).length) :
    (get_latest_articles resolve (Except.ok elems)).length = 10 ∧
      get_latest_articles resolve (Except.ok elems) <+: acceptLoop resolve elems [] := by
  constructor
  · simp only [get_latest_articles, List.length_take]
    omega
  · simp only [get_latest_articles]
    exact List.take_prefix _ _

/-- Witness data for C6: eleven matched elements, each with a qualifying
seven-word title and a distinct href. -/
def elemsEleven : List Element :=
  [⟨"one two three four five six seven", some "/a1"⟩,
   ⟨"one two three four five six seven", some "/a2"⟩,
   ⟨"one two three four five six seven", some "/a3"⟩,
   ⟨"one two three four five six seven", some "/a4"⟩,
   ⟨"one two three four five six seven", some "/a5"⟩,
   ⟨"one two three four five six seven", some "/a6"⟩,
   ⟨"one two three four five six seven", some "/a7"⟩,
   ⟨"one two three four five six seven", some "/a8"⟩,
   ⟨"one two three four five six seven", some "/a9"⟩,
   ⟨"one two three four five six seven", some "/b1"⟩,
   ⟨"one two three four five six seven", some "/b2"⟩]

/-- C6 witness: an 11-element document, all elements qualifying with distinct
hrefs, whose extraction returns exactly 10 candidates. -/
theorem c6_witness :
    10 < (acceptLoop id elemsEleven []).length ∧
      (get_latest_articles id (Except.ok elemsEleven)).length = 10 :=
  ⟨by decide, (c6_candidate_cap id elemsEleven (by decide)).1⟩

/-- C9: when the homepage fetch raises a transport error of any kind
(timeout, network failure, non-2xx status), `get_latest_articles` returns the
empty list; the exception is caught inside the function (modelled by the
function being total on the error branch), so nothing propagates to the
caller. -/
theorem c9_fetch_failure (resolve : String → String) (e : FetchError) :
    get_latest_articles resolve (Except.error e) = [] := rfl

/-- `urljoin "https://x.com"` restricted to the href shapes used in the C1
failing input: a root-relative href resolves against the scheme and host of
the base url; an absolute href is returned unchanged. -/
def resolveBaseX : String → String :=
  fun href =>
    match href.data with
    | '/' :: _ => "https://x.com" ++ href
    | _ => href

/-- The C1 failing input: two matched elements with qualifying titles and the
same root-relative href. -/
def elemsSameHref : List Element :=
  [⟨"alpha beta gamma delta epsilon zeta", some "/a"⟩,
   ⟨"eta theta iota kappa lambda mu nu", some "/a"⟩]

/-- C1: the claimed invariant fails on the code.  The dedup test compares the
raw href against the resolved urls of the accepted candidates, so for two
elements with the same root-relative href the second is not dropped: the
extraction returns two candidates with the same resolved url. -/
theorem c1_duplicate_url :
    (get_latest_articles resolveBaseX (Except.ok elemsSameHref)).map Candidate.url
        = ["https://x.com/a", "https://x.com/a"] ∧
      ¬ ((get_latest_articles resolveBaseX (Except.ok elemsSameHref)).map
          Candidate.url).Nodup := by
  constructor
  · decide
  · decide

/-- C4: `summarize_article` on empty article text returns the fixed
placeholder string, before any external call is made; on non-empty text whose
external generation call raises it returns `none`; these outputs differ, so
the two failure signals are distinct for every input. -/
theorem c4_empty_vs_failure (llm : Option String) (title text : String)
    (htext : text ≠ "") :
    summarize_article llm "" title = some "Summary could not be generated." ∧
      summarize_article none text title = none ∧
      summarize_article llm "" title ≠ summarize_article none text title := by
  refine ⟨by simp [summarize_article], by simp [summarize_article, htext], ?_⟩
  simp [summarize_article, htext]

/-- C4 witness: the two failure signals at concrete inputs. -/
theorem c4_witness :
    ("non-empty text" : String) ≠ "" ∧
      (summarize_article none "" "T" = some "Summary could not be generated." ∧
        summarize_article none "non-empty text" "T" = none ∧
        summarize_article none "" "T" ≠ summarize_article none "non-empty text" "T") :=
  ⟨by decide, c4_empty_vs_failure none "T" "non-empty text" (by decide)⟩

theorem pyTake_length (s : String) (n : Nat) :
    (pyTake s n).length = min n s.length := by
  show (s.data.take n).length = min n s.data.length
  exact List.length_take ..

/-- The caption of the message sent by `post_to_telegram` is the built
message, for a photo message and a text-only message alike. -/
theorem post_to_telegram_caption (ok : Bool) (summary : String) (article : Article) :
    ((post_to_telegram ok summary article).2).caption
      = buildMessage (truncSummary summary) article := by
  simp only [post_to_telegram]
  cases article.image_url with
  | none => rfl
  | some img =>
    by_cases h : img = "" <;> simp [h, SentMessage.caption]

/-- C5: for a 900-character summary, the caption sent by `post_to_telegram`
embeds exactly the first 850 characters followed by the ellipsis marker, the
embedded summary part has length 853 and so is never the full 900-character
summary, and the truncation is applied exactly when the summary length
exceeds `MAX_SUMMARY_LENGTH = 850` (any summary of length at most 850 is
passed through unchanged, as the extra argument `t` shows). -/
theorem c5_truncation (ok : Bool) (summary : String) (article : Article)
    (h900 : summary.length = 900) (t : String)
    (ht : t.length ≤ MAX_SUMMARY_LENGTH) :
    ((post_to_telegram ok summary article).2).caption
        = "📰 *" ++ article.title ++ "*\n\n" ++ (pyTake summary 850 ++ "...") ++
          "\n\n🔗 [Read the full article here](" ++ article.url ++ ")" ∧
      truncSummary summary = pyTake summary 850 ++ "..." ∧
      (pyTake summary 850 ++ "...").length = 853 ∧
      truncSummary summary ≠ summary ∧
      truncSummary t = t := by
  have hcond : MAX_SUMMARY_LENGTH < summary.length := by
    unfold MAX_SUMMARY_LENGTH
    omega
  have htr : truncSummary summary = pyTake summary 850 ++ "..." := by
    rw [truncSummary, if_pos hcond]
    rfl
  have hlen : (pyTake summary 850 ++ "...").length = 853 := by
    rw [String.length_append, pyTake_length, h900]
    decide
  refine ⟨?_, htr, hlen, ?_, ?_⟩
  · rw [post_to_telegram_caption, htr]
    rfl
  · intro heq
    rw [htr] at heq
    have hc := congrArg String.length heq
    rw [hlen, h900] at hc
    omega
  · have hcond2 : ¬ MAX_SUMMARY_LENGTH < t.length := by
      unfold MAX_SUMMARY_LENGTH at ht ⊢
      omega
    rw [truncSummary, if_neg hcond2]

/-- A concrete 900-character summary for the C5 witness. -/
def summary900 : String := String.mk (List.replicate 900 'a')

/-- C5 witness: the truncation facts evaluated at the concrete 900-character
summary and a concrete short summary. -/
theorem c5_witness :
    summary900.length = 900 ∧
      truncSummary summary900 = pyTake summary900 850 ++ "..." ∧
      truncSummary "short" = "short" :=
  ⟨by show (List.replicate 900 'a').length = 900; exact List.length_replicate ..,
    (c5_truncation true summary900 ⟨"T", "https://x.com/a", none⟩
      (by show (List.replicate 900 'a').length = 900; exact List.length_replicate ..)
      "short" (by decide)).2.1,
    (c5_truncation true summary900 ⟨"T", "https://x.com/a", none⟩
      (by show (List.replicate 900 'a').length = 900; exact List.length_replicate ..)
      "short" (by decide)).2.2.2.2⟩

/-- C8: when the concatenated paragraph text of an article page is empty,
`scrape_article_content` returns `none`, whatever the `og:image` tag holds. -/
theorem c8_empty_text (doc : ArticleDoc)
    (hempty : pyJoin " " doc.paragraphs = "") :
    scrape_article_content (Except.ok doc) = none := by
  simp [scrape_article_content, hempty]

/-- C8 witness: a document with no paragraph text but a present, non-empty
preview-image tag still yields `none`. -/
theorem c8_witness :
    pyJoin " " ([] : List String) = "" ∧
      scrape_article_content
        (Except.ok ⟨[], some (some "https://img.example/x.png")⟩) = none :=
  ⟨rfl, c8_empty_text ⟨[], some (some "https://img.example/x.png")⟩ rfl⟩

/-- Case analysis of one per-candidate iteration: either the candidate was
posted and the store is exactly the store with its url appended, or the
outcome is not `posted` and the store is unchanged. -/
theorem processCandidate_cases (env : CandidateEnv) (store : Option String)
    (c : Candidate) :
    ((processCandidate env store c).1 = Outcome.posted ∧
        (processCandidate env store c).2 = mark_as_posted store c.url) ∨
      ((processCandidate env store c).1 ≠ Outcome.posted ∧
        (processCandidate env store c).2 = store) := by
  simp only [processCandidate]
  repeat' split
  all_goals simp

/-- A candidate whose url is already recorded is skipped quietly, with the
store untouched. -/
theorem processCandidate_skip (env : CandidateEnv) (store : Option String)
    (c : Candidate) (h : has_been_posted store c.url = true) :
    processCandidate env store c = (Outcome.skippedPosted, store) := by
  simp [processCandidate, h]

/-- Once a url is recorded in a reachable store, every later candidate of the
run with that url is skipped: the loop re-reads the store (via
`has_been_posted`) before each candidate, and each step either leaves the
store alone or appends another candidate's url, never removing records. -/
theorem runCandidates_skip_recorded (x : String) :
    ∀ (items : List (Candidate × CandidateEnv)) (us : List String),
      (∀ v ∈ us, noNL v) → (∀ p ∈ items, noNL p.1.url) → x ∈ us →
      ∀ (j : Nat) (hj : j < items.length), (items.get ⟨j, hj⟩).1.url = x →
        (runCandidates (some (encodeStore us)) items).1.getD j Outcome.failed
          = Outcome.skippedPosted := by
  intro items
  induction items with
  | nil =>
    intro us _ _ _ j hj
    simp at hj
  | cons p rest ih =>
    intro us hus hitems hmem j hj hurl
    obtain ⟨c, env⟩ := p
    have hcurl : noNL c.url := hitems (c, env) (List.mem_cons_self ..)
    have hitems2 : ∀ q ∈ rest, noNL q.1.url :=
      fun q hq => hitems q (List.mem_cons_of_mem _ hq)
    cases j with
    | zero =>
      have hcx : c.url = x := hurl
      have hhas : has_been_posted (some (encodeStore us)) c.url = true := by
        rw [has_been_posted_encode us hus, hcx]
        exact hmem
      simp [runCandidates, processCandidate_skip env _ c hhas]
    | succ j =>
      have hurl2 : (rest.get ⟨j, by simpa using hj⟩).1.url = x := by
        simpa using hurl
      rcases processCandidate_cases env (some (encodeStore us)) c with ⟨_, h2⟩ | ⟨_, h2⟩
      · have step : (runCandidates (some (encodeStore us)) ((c, env) :: rest)).1.getD
            (j + 1) Outcome.failed
            = (runCandidates (processCandidate env (some (encodeStore us)) c).2
                rest).1.getD j Outcome.failed := by
          simp [runCandidates]
        rw [step, h2, mark_as_posted_encode]
        apply ih (us ++ [c.url]) ?_ hitems2 ?_ j (by simpa using hj) hurl2
        · intro v hv
          rcases List.mem_append.mp hv with h | h
          · exact hus v h
          · rcases List.mem_singleton.mp h with rfl
            exact hcurl
        · exact List.mem_append.mpr (Or.inl hmem)
      · have step : (runCandidates (some (encodeStore us)) ((c, env) :: rest)).1.getD
            (j + 1) Outcome.failed
            = (runCandidates (processCandidate env (some (encodeStore us)) c).2
                rest).1.getD j Outcome.failed := by
          simp [runCandidates]
        rw [step, h2]
        exact ih us hus hitems2 hmem j (by simpa using hj) hurl2

/-- C10: within a single cycle, once candidate `c` has been posted (and hence
recorded by `mark_as_posted`), every later candidate of the same cycle with
the same url — the remaining candidates of this source and all candidates of
sources processed later in the cycle, concatenated into `rest` — receives the
`skippedPosted` outcome, because `has_been_posted` re-reads the store
immediately before each candidate is processed. -/
theorem c10_same_cycle_skip (us : List String) (hus : ∀ v ∈ us, noNL v)
    (c : Candidate) (hcu : noNL c.url) (env : CandidateEnv)
    (hposted : (processCandidate env (some (encodeStore us)) c).1 = Outcome.posted)
    (rest : List (Candidate × CandidateEnv)) (hrest : ∀ p ∈ rest, noNL p.1.url)
    (j : Nat) (hj : j < rest.length) (hurl : (rest.get ⟨j, hj⟩).1.url = c.url) :
    (runCandidates (processCandidate env (some (encodeStore us)) c).2 rest).1.getD
        j Outcome.failed
      = Outcome.skippedPosted := by
  rcases processCandidate_cases env (some (encodeStore us)) c with ⟨_, h2⟩ | ⟨hne, _⟩
  · rw [h2, mark_as_posted_encode]
    apply runCandidates_skip_recorded c.url rest (us ++ [c.url]) ?_ hrest ?_ j hj hurl
    · intro v hv
      rcases List.mem_append.mp hv with h | h
      · exact hus v h
      · rcases List.mem_singleton.mp h with rfl
        exact hcu
    · exact List.mem_append.mpr (Or.inr (List.mem_singleton.mpr rfl))
  · exact absurd hposted hne

/-- C10 witness: a posted candidate followed by a second candidate with the
same url from (conceptually) another source later in the same cycle; the
second is skipped. -/
theorem c10_witness :
    (processCandidate ⟨some ⟨"body text", none⟩, some "a summary", true⟩
        (some (encodeStore [])) ⟨"Title one", "https://x.com/a"⟩).1 = Outcome.posted ∧
      (runCandidates
          (processCandidate ⟨some ⟨"body text", none⟩, some "a summary", true⟩
            (some (encodeStore [])) ⟨"Title one", "https://x.com/a"⟩).2
          [(⟨"Title two", "https://x.com/a"⟩,
            ⟨some ⟨"other body", none⟩, some "other summary", true⟩)]).1.getD
        0 Outcome.failed = Outcome.skippedPosted :=
  ⟨by decide,
    c10_same_cycle_skip [] (by decide) ⟨"Title one", "https://x.com/a"⟩ (by decide)
      ⟨some ⟨"body text", none⟩, some "a summary", true⟩ (by decide)
      [(⟨"Title two", "https://x.com/a"⟩,
        ⟨some ⟨"other body", none⟩, some "other summary", true⟩)]
      (by decide) 0 (by decide) (by decide)⟩

/-- C3: in the scenario where a candidate's first publish attempt fails and
the second (in a later cycle) succeeds, the first iteration yields the
`failed` outcome and leaves the dedup store untouched (no record on a failed
publish), and the second yields `posted` and leaves the store containing the
candidate's url exactly once (recording happens only after success). -/
theorem c3_record_only_after_success (us : List String) (hus : ∀ v ∈ us, noNL v)
    (c : Candidate) (hcu : noNL c.url) (hnew : c.url ∉ us)
    (env1 env2 : CandidateEnv) (ct1 ct2 : ArticleContent) (s1 s2 : String)
    (h1a : env1.scrape = some ct1) (h1b : ct1.text ≠ "")
    (h1c : env1.llm = some s1) (h1d : s1 ≠ "") (h1e : env1.publishOK = false)
    (h2a : env2.scrape = some ct2) (h2b : ct2.text ≠ "")
    (h2c : env2.llm = some s2) (h2d : s2 ≠ "") (h2e : env2.publishOK = true) :
    (processCandidate env1 (some (encodeStore us)) c).1 = Outcome.failed ∧
      (processCandidate env1 (some (encodeStore us)) c).2 = some (encodeStore us) ∧
      (processCandidate env2 (processCandidate env1 (some (encodeStore us)) c).2 c).1
        = Outcome.posted ∧
      (storeLines
          (processCandidate env2 (processCandidate env1 (some (encodeStore us)) c).2
            c).2).count c.url = 1 := by
  have hhas : has_been_posted (some (encodeStore us)) c.url = false := by
    cases hb : has_been_posted (some (encodeStore us)) c.url
    · rfl
    · exact absurd ((has_been_posted_encode us hus c.url).mp hb) hnew
  have hr1 : processCandidate env1 (some (encodeStore us)) c
      = (Outcome.failed, some (encodeStore us)) := by
    simp [processCandidate, hhas, h1a, h1b, summarize_article, h1c, h1d, h1e,
      post_to_telegram]
  have hr2 : processCandidate env2 (some (encodeStore us)) c
      = (Outcome.posted, mark_as_posted (some (encodeStore us)) c.url) := by
    simp [processCandidate, hhas, h2a, h2b, summarize_article, h2c, h2d, h2e,
      post_to_telegram]
  refine ⟨by rw [hr1], by rw [hr1], by rw [hr1, hr2], ?_⟩
  rw [hr1]
  simp only [hr2]
  rw [mark_as_posted_encode]
  have hlines : storeLines (some (encodeStore (us ++ [c.url]))) = us ++ [c.url] := by
    rw [storeLines]
    apply pySplitlines_encodeStore
    intro v hv
    rcases List.mem_append.mp hv with h | h
    · exact hus v h
    · rcases List.mem_singleton.mp h with rfl
      exact hcu
  rw [hlines, List.count_append]
  rw [List.count_eq_zero.mpr hnew]
  simp

/-- C3 witness: the failed-then-successful publish scenario at concrete
inputs, starting from the empty store. -/
theorem c3_witness :
    (processCandidate ⟨some ⟨"body", none⟩, some "sum", false⟩
        (some (encodeStore [])) ⟨"Title", "https://x.com/a"⟩).1 = Outcome.failed ∧
      (storeLines
          (processCandidate ⟨some ⟨"body", none⟩, some "sum", true⟩
            (processCandidate ⟨some ⟨"body", none⟩, some "sum", false⟩
              (some (encodeStore [])) ⟨"Title", "https://x.com/a"⟩).2
            ⟨"Title", "https://x.com/a"⟩).2).count "https://x.com/a" = 1 :=
  ⟨(c3_record_only_after_success [] (by decide) ⟨"Title", "https://x.com/a"⟩
      (by decide) (by decide) ⟨some ⟨"body", none⟩, some "sum", false⟩
      ⟨some ⟨"body", none⟩, some "sum", true⟩ ⟨"body", none⟩ ⟨"body", none⟩
      "sum" "sum" rfl (by decide) rfl (by decide) rfl rfl (by decide) rfl
      (by decide) rfl).1,
    (c3_record_only_after_success [] (by decide) ⟨"Title", "https://x.com/a"⟩
      (by decide) (by decide) ⟨some ⟨"body", none⟩, some "sum", false⟩
      ⟨some ⟨"body", none⟩, some "sum", true⟩ ⟨"body", none⟩ ⟨"body", none⟩
      "sum" "sum" rfl (by decide) rfl (by decide) rfl rfl (by decide) rfl
      (by decide) rfl).2.2.2⟩

end NewsAgent
